import Mathlib

set_option maxHeartbeats 1000000

/-! Verification of the simulation core of the Infernal game (src/Infernal.py).

Embedding conventions:
- pygame rectangles are integer rectangles (pygame stores int coordinates);
- Python floats are modelled as rationals, except where a square root is
  computed (shooting direction, diagonal movement), where reals are used;
- Python int() conversion is truncation toward zero (pyInt);
- class-level mutable attributes (the Enemy difficulty tier, Room.reached_level)
  are threaded as explicit state;
- the unbounded rejection-sampling while-loops of Room.create_room receive
  explicit fuel and return none when the fuel runs out; the random stream is
  an arbitrary oracle of natural numbers, with randint a b drawing
  a + r mod (b - a + 1) and choice drawing by index. -/

/-- Truncation toward zero: the behaviour of Python int() on a float value. -/
def pyInt (q : ℚ) : ℤ := if 0 ≤ q then ⌊q⌋ else -⌊-q⌋

/-- Axis-aligned rectangle with integral coordinates, as pygame.Rect. -/
structure Rect where
  x : ℤ
  y : ℤ
  w : ℤ
  h : ℤ
deriving DecidableEq, Repr

/-- pygame.Rect.colliderect: strict overlap test (edge-touching rectangles do
not collide). All rectangles built by the game have positive sizes, so the
pygame special case for zero-sized rectangles does not arise. -/
def CollideP (a b : Rect) : Prop :=
  a.x < b.x + b.w ∧ b.x < a.x + a.w ∧ a.y < b.y + b.h ∧ b.y < a.y + a.h

instance (a b : Rect) : Decidable (CollideP a b) := by
  unfold CollideP; exact inferInstance

/-- Boolean form of colliderect. -/
def collide (a b : Rect) : Bool := decide (CollideP a b)

theorem collide_comm (a b : Rect) : collide a b = collide b a := by
  simp only [collide, decide_eq_decide, CollideP]
  tauto

theorem collide_eq_false (a b : Rect) : collide a b = false ↔ ¬ CollideP a b := by
  simp [collide]

namespace Constants

def GAME_WIDTH : ℤ := 800
def GAME_HEIGHT : ℤ := 700
def GAME_TILE_SIZE : ℤ := 40

end Constants

/-! ## Enemy difficulty tier (class-level mutable stats of Enemy) -/

/-- The class-level mutable stats of Enemy: the current difficulty tier. -/
structure Tier where
  max_health : ℚ
  speed : ℚ
  damage : ℚ
deriving DecidableEq, Repr

namespace Enemy

def MAX_SPEED : ℚ := 20
def MAX_DAMAGE : ℚ := 5

/-- Enemy.increase_max_health: Enemy.max_health += number (note: no cap). -/
def increase_max_health (t : Tier) (n : ℚ) : Tier :=
  { t with max_health := t.max_health + n }

/-- Enemy.increase_speed: capped at MAX_SPEED. -/
def increase_speed (t : Tier) (n : ℚ) : Tier :=
  { t with speed := min MAX_SPEED (t.speed + n) }

/-- Enemy.increase_damage: capped at MAX_DAMAGE. -/
def increase_damage (t : Tier) (n : ℚ) : Tier :=
  { t with damage := min MAX_DAMAGE (t.damage + n) }

def get_speed (t : Tier) : ℚ := t.speed

def get_damage (t : Tier) : ℚ := t.damage

end Enemy

namespace Game

def ENEMY_HEALTH_INCREASE : ℚ := 0.4
def ENEMY_SPEED_SMALL_INC : ℚ := 0.1
def ENEMY_SPEED_LARGE_INC : ℚ := 0.4
def ENEMY_DAMAGE_INCREASE : ℚ := 0.2

/-- The stat adjustment block at the top of Game.new_level (the body of the
level-parity conditional). -/
def levelStatBump (t : Tier) : Tier :=
  let t1 := Enemy.increase_max_health t ENEMY_HEALTH_INCREASE
  let t2 :=
    if Enemy.get_speed t1 < 5 then Enemy.increase_speed t1 ENEMY_SPEED_LARGE_INC
    else Enemy.increase_speed t1 ENEMY_SPEED_SMALL_INC
  Enemy.increase_damage t2 ENEMY_DAMAGE_INCREASE

/-- The tier update performed by Game.new_level: the bump runs only when
reached_level mod LEVEL_INTERVAL_FOR_ENEMY_STATS (= 2) is nonzero. -/
def newLevelTier (l : ℤ) (t : Tier) : Tier :=
  if l % 2 ≠ 0 then levelStatBump t else t

end Game

/-- The tier installed by Game.setup_game: speed 1.5, max health 3, damage 1. -/
def initTier : Tier := { max_health := 3, speed := 1.5, damage := 1 }

/-! ## Claim C2 -/

theorem levelStatBump_max_health (t : Tier) :
    (Game.levelStatBump t).max_health = t.max_health + 0.4 := by
  simp only [Game.levelStatBump]
  split <;> rfl

theorem bumpIter_max_health (n : ℕ) :
    (Game.levelStatBump^[n] initTier).max_health = 3 + 0.4 * n := by
  induction n with
  | zero => norm_num [initTier]
  | succ k ih =>
      rw [Function.iterate_succ_apply', levelStatBump_max_health, ih]
      push_cast
      ring

/-- Claim C2 counterexample: the claim asserts that all three tier values
remain capped at fixed maxima no matter how many transitions occur, never
growing without bound. But Enemy.increase_max_health has no cap: after 100
bumps the shared max-health is 43 (already above every cap constant in the
program) and the 101st bump still raises it to 43.4. -/
theorem tier_max_health_uncapped_cex :
    (Game.levelStatBump^[100] initTier).max_health = 43 ∧
    (Game.levelStatBump^[101] initTier).max_health = 43.4 ∧
    ¬ (43.4 : ℚ) ≤ 43 := by
  refine ⟨?_, ?_, by norm_num⟩ <;> rw [bumpIter_max_health] <;> norm_num

/-- Claim C2 (amended): on a transition with reached_level mod 2 nonzero the
tier is bumped by +0.4 max-health, +0.4 speed if the current speed is below 5
else +0.1, and +0.2 damage; on even reached_level the tier is unchanged.
Speed and damage stay capped at 20 and 5, but max-health is uncapped and
grows by exactly 0.4 per bump, without bound. -/
theorem tier_progression_spec :
    (∀ (l : ℤ) (t : Tier), l % 2 = 0 → Game.newLevelTier l t = t) ∧
    (∀ (l : ℤ) (t : Tier), l % 2 ≠ 0 → Game.newLevelTier l t = Game.levelStatBump t) ∧
    (∀ t : Tier, (Game.levelStatBump t).speed ≤ 20 ∧ (Game.levelStatBump t).damage ≤ 5) ∧
    (∀ n : ℕ, (Game.levelStatBump^[n] initTier).max_health = 3 + 0.4 * n) := by
  refine ⟨?_, ?_, ?_, bumpIter_max_health⟩
  · intro l t h
    simp [Game.newLevelTier, h]
  · intro l t h
    simp [Game.newLevelTier, h]
  · intro t
    constructor
    · simp only [Game.levelStatBump]
      split <;>
        simp [Enemy.increase_damage, Enemy.increase_speed, Enemy.MAX_SPEED]
    · simp only [Game.levelStatBump]
      split <;>
        simp [Enemy.increase_damage, Enemy.MAX_DAMAGE]

theorem tier_progression_spec_witness :
    Game.newLevelTier 1 initTier = Game.levelStatBump initTier :=
  tier_progression_spec.2.1 1 initTier (by decide)

/-! ## Claim C1: Player.take_damage -/

namespace BossEnemy

/-- The class attribute BossEnemy.damage. It is never reassigned at class
level anywhere in the program (BossEnemy instances shadow it with a scaled
instance attribute, which the static get_damage below does not read). -/
def classDamage : ℚ := 5

/-- BossEnemy.get_damage (staticmethod): returns the class attribute. -/
def get_damage : ℚ := classDamage

def MAX_DAMAGE : ℚ := 10

end BossEnemy

/-- The player state read and written by Player.take_damage. -/
structure PlayerD where
  current_health : ℤ
  is_immune : Bool
  immunity_timer : ℤ
  immunity_duration : ℤ
deriving DecidableEq, Repr

/-- The class-level context take_damage consults: Room.reached_level and the
shared Enemy.damage tier value. -/
structure DmgCtx where
  reached_level : ℤ
  enemy_damage : ℚ
deriving DecidableEq, Repr

namespace Player

/-- Player.take_damage. -/
def take_damage (ctx : DmgCtx) (p : PlayerD) : PlayerD :=
  if p.is_immune then p
  else
    let amt : ℤ :=
      if (ctx.reached_level + 1) % 4 = 0 then pyInt BossEnemy.get_damage
      else pyInt ctx.enemy_damage
    { p with
        current_health := p.current_health - amt
        is_immune := true
        immunity_timer := p.immunity_duration }

end Player

/-- The boss damage amount as worded by claim C1:
int(min(bossMaxDamage = 10, bossBaseDamage = 5 times (reachedLevel+1)/4)). -/
def bossDamageClaim (l : ℤ) : ℤ := pyInt (min 10 (5 * ((l : ℚ) + 1) / 4))

/-- Claim C1 counterexample: at reached_level 7 (a boss room, since 8 mod 4 = 0)
the claim predicts a subtraction of int(min(10, 5 times 8 / 4)) = 10, but
take_damage subtracts int(BossEnemy.get_damage()) = 5, because get_damage
returns the never-rescaled class attribute, not the per-instance scaled
damage. Health 3 becomes -2, not 3 - 10 = -7. -/
theorem take_damage_boss_amount_cex :
    (Player.take_damage ⟨7, 1⟩ ⟨3, false, 0, 60⟩).current_health ≠ 3 - bossDamageClaim 7 := by
  norm_num [Player.take_damage, pyInt, BossEnemy.get_damage, BossEnemy.classDamage,
    bossDamageClaim]

/-- Claim C1 (amended): while immune, take_damage is a no-op leaving all
player state unchanged. Otherwise, in a boss room ((reached_level+1) mod 4 = 0)
it subtracts int(BossEnemy.damage) = 5, the fixed class-level boss damage
(not the level-scaled per-instance value); in a normal room it subtracts the
shared enemy tier damage truncated to int; in both cases it then sets the
immune flag and the immunity countdown to the immunity duration. -/
theorem take_damage_spec (ctx : DmgCtx) (p : PlayerD) :
    (p.is_immune = true → Player.take_damage ctx p = p) ∧
    (p.is_immune = false → (ctx.reached_level + 1) % 4 = 0 →
      Player.take_damage ctx p =
        { p with
            current_health := p.current_health - pyInt BossEnemy.get_damage
            is_immune := true
            immunity_timer := p.immunity_duration }) ∧
    (p.is_immune = false → (ctx.reached_level + 1) % 4 ≠ 0 →
      Player.take_damage ctx p =
        { p with
            current_health := p.current_health - pyInt ctx.enemy_damage
            is_immune := true
            immunity_timer := p.immunity_duration }) ∧
    pyInt BossEnemy.get_damage = 5 := by
  refine ⟨?_, ?_, ?_, by norm_num [pyInt, BossEnemy.get_damage, BossEnemy.classDamage]⟩
  · intro h
    simp [Player.take_damage, h]
  · intro h hb
    simp [Player.take_damage, h, hb]
  · intro h hb
    simp [Player.take_damage, h, hb]

theorem take_damage_spec_witness :
    Player.take_damage ⟨3, 1⟩ ⟨3, false, 0, 60⟩ =
      { (⟨3, false, 0, 60⟩ : PlayerD) with
          current_health := 3 - pyInt BossEnemy.get_damage
          is_immune := true
          immunity_timer := 60 } :=
  (take_damage_spec ⟨3, 1⟩ ⟨3, false, 0, 60⟩).2.1 rfl (by decide)

/-! ## Room generation (Room.create_room) and level transition (Game.new_level) -/

/-- random.randint(a, b) driven by one oracle value: a + r mod (b - a + 1).
Meaningful when a le b, which holds at every call site. -/
def randintM (a b : ℤ) (r : ℕ) : ℤ := a + (r : ℤ) % (b - a + 1)

/-- random.choice over the three wall sizes TILE, 2 TILE, 3 TILE, by index. -/
def sizeChoice (r : ℕ) : ℤ :=
  ([Constants.GAME_TILE_SIZE, Constants.GAME_TILE_SIZE * 2,
    Constants.GAME_TILE_SIZE * 3] : List ℤ).getD (r % 3) Constants.GAME_TILE_SIZE

/-- The four outer boundary walls, in creation order (top, bottom, left,
right), as built once in Room.init. -/
def outerWallsL : List Rect :=
  [ ⟨0, 0, Constants.GAME_WIDTH, Constants.GAME_TILE_SIZE⟩,
    ⟨0, Constants.GAME_HEIGHT - Constants.GAME_TILE_SIZE, Constants.GAME_WIDTH,
      Constants.GAME_TILE_SIZE⟩,
    ⟨0, 0, Constants.GAME_TILE_SIZE, Constants.GAME_HEIGHT⟩,
    ⟨Constants.GAME_WIDTH - Constants.GAME_TILE_SIZE, 0, Constants.GAME_TILE_SIZE,
      Constants.GAME_HEIGHT⟩ ]

/-- One candidate inner wall, drawn from four consecutive oracle values:
x in [2 TILE, WIDTH - 3 TILE], y in [2 TILE, HEIGHT - 3 TILE], and a size
choice per axis. -/
def wallCandidate (o : ℕ → ℕ) (p : ℕ) : Rect :=
  { x := randintM (Constants.GAME_TILE_SIZE * 2)
      (Constants.GAME_WIDTH - Constants.GAME_TILE_SIZE * 3) (o p)
    y := randintM (Constants.GAME_TILE_SIZE * 2)
      (Constants.GAME_HEIGHT - Constants.GAME_TILE_SIZE * 3) (o (p + 1))
    w := sizeChoice (o (p + 2))
    h := sizeChoice (o (p + 3)) }

/-- The acceptance test of the inner-wall rejection loop: the candidate must
not collide with the safe zone nor with any wall already in the room. -/
def okWall (walls : List Rect) (safe c : Rect) : Bool :=
  !(collide c safe) && walls.all (fun w => !(collide c w))

/-- The while-loop placing one inner wall, with fuel. -/
def tryPlaceWall : ℕ → (ℕ → ℕ) → ℕ → List Rect → Rect → Option (Rect × ℕ)
  | 0, _, _, _, _ => none
  | fuel + 1, o, p, walls, safe =>
      let c := wallCandidate o p
      if okWall walls safe c then some (c, p + 4)
      else tryPlaceWall fuel o (p + 4) walls safe

/-- The for-loop placing the requested number of inner walls. -/
def placeWalls : ℕ → ℕ → (ℕ → ℕ) → ℕ → List Rect → Rect → Option (List Rect × ℕ)
  | 0, _, _, p, walls, _ => some (walls, p)
  | n + 1, fuel, o, p, walls, safe =>
      match tryPlaceWall fuel o p walls safe with
      | none => none
      | some (c, p1) => placeWalls n fuel o p1 (walls ++ [c]) safe

/-- An enemy object as relevant to room generation: its bounding rectangle,
its starting health, and whether it is the boss variant. -/
structure EnemyInst where
  rect : Rect
  health : ℚ
  isBoss : Bool
deriving DecidableEq, Repr

namespace BossEnemy

/-- The class attribute BossEnemy.max_health; never reassigned (the tier
bumps touch Enemy.max_health only). -/
def max_health_c : ℤ := 30

def BOSS_HEALTH_SCALING : ℤ := 3

end BossEnemy

/-- Enemy construction at a centre point: pygame get_rect(center=(x, y)) with
the (positive) sprite size, and health read from the shared tier. -/
def mkEnemy (tierHealth : ℚ) (ew eh x y : ℤ) : EnemyInst :=
  { rect := ⟨x - ew / 2, y - eh / 2, ew, eh⟩, health := tierHealth, isBoss := false }

/-- BossEnemy construction: health = BossEnemy.max_health + 3 * reached_level. -/
def mkBoss (l bw bh x y : ℤ) : EnemyInst :=
  { rect := ⟨x - bw / 2, y - bh / 2, bw, bh⟩
    health := ((BossEnemy.max_health_c + BossEnemy.BOSS_HEALTH_SCALING * l : ℤ) : ℚ)
    isBoss := true }

/-- The acceptance test of the enemy rejection loop: the candidate rectangle
must not collide with the enemy safe zone nor with any wall of the room. -/
def okEnemySpot (walls : List Rect) (ezone r : Rect) : Bool :=
  !(collide r ezone) && walls.all (fun w => !(collide r w))

/-- The while-loop placing one enemy, with fuel; each candidate draws a
centre point from two oracle values, in [2 TILE, WIDTH - 2 TILE] and
[2 TILE, HEIGHT - 2 TILE]. -/
def tryPlaceEnemy : ℕ → (ℕ → ℕ) → ℕ → List Rect → Rect → (ℤ → ℤ → EnemyInst) →
    Option (EnemyInst × ℕ)
  | 0, _, _, _, _, _ => none
  | fuel + 1, o, p, walls, ezone, mk =>
      let x := randintM (Constants.GAME_TILE_SIZE * 2)
        (Constants.GAME_WIDTH - Constants.GAME_TILE_SIZE * 2) (o p)
      let y := randintM (Constants.GAME_TILE_SIZE * 2)
        (Constants.GAME_HEIGHT - Constants.GAME_TILE_SIZE * 2) (o (p + 1))
      let e := mk x y
      if okEnemySpot walls ezone e.rect then some (e, p + 2)
      else tryPlaceEnemy fuel o (p + 2) walls ezone mk

/-- The for-loop spawning enemies, carrying the boss flag and the
boss_spawned break flag of the source. -/
def placeEnemies : ℕ → ℕ → (ℕ → ℕ) → ℕ → List Rect → Rect → Bool → Bool →
    (ℤ → ℤ → EnemyInst) → (ℤ → ℤ → EnemyInst) → Option (List EnemyInst × ℕ)
  | 0, _, _, p, _, _, _, _, _, _ => some ([], p)
  | n + 1, fuel, o, p, walls, ezone, bossFlag, bossSpawned, mkN, mkB =>
      if bossSpawned then some ([], p)
      else
        match tryPlaceEnemy fuel o p walls ezone (if bossFlag then mkB else mkN) with
        | none => none
        | some (e, p1) =>
            match placeEnemies n fuel o p1 walls ezone bossFlag (bossSpawned || bossFlag)
                mkN mkB with
            | none => none
            | some (es, p2) => some (e :: es, p2)

/-- A generated room: walls in insertion order (the four shared outer walls
first, then the accepted inner walls) and the spawned enemies. -/
structure RoomS where
  walls : List Rect
  enemies : List EnemyInst
deriving DecidableEq, Repr

namespace Room

def POINTS : ℤ := 10

def WALL_VARIATION_RANGE : ℤ := 3

/-- Room.create_room. Parameters: l = Room.reached_level, tierHealth =
Enemy.max_health, (ew, eh) / (bw, bh) the enemy / boss sprite sizes, s the
save-zone half-extent, fuel the bound on each rejection loop, o the random
oracle. The number of inner walls is randint(3, 6); the enemy count draw
randint(1 + l // 2, 3 + l // 2) happens before the boss check and is
overwritten by 1 in a boss room ((l + 1) mod 4 = 0). -/
def create_room (l : ℤ) (tierHealth : ℚ) (ew eh bw bh s : ℤ) (fuel : ℕ) (o : ℕ → ℕ) :
    Option RoomS :=
  let safe : Rect := ⟨Constants.GAME_WIDTH / 2 - s, Constants.GAME_HEIGHT / 2 - s,
    s * 2, s * 2⟩
  let nWalls := (randintM 3 (3 + WALL_VARIATION_RANGE) (o 0)).toNat
  match placeWalls nWalls fuel o 1 outerWallsL safe with
  | none => none
  | some (ws, p) =>
      let ezone : Rect := ⟨Constants.GAME_WIDTH / 2 - s * 2,
        Constants.GAME_HEIGHT / 2 - s * 2, s * 2 * 2, s * 2 * 2⟩
      let cntDraw := randintM (1 + l / 2) (1 + 2 + l / 2) (o p)
      let boss := decide ((l + 1) % 4 = 0)
      let cnt := if boss then 1 else cntDraw.toNat
      match placeEnemies cnt fuel o (p + 1) ws ezone boss false
          (mkEnemy tierHealth ew eh) (mkBoss l bw bh) with
      | none => none
      | some (es, _) => some ⟨ws, es⟩

end Room

/-- Pairwise non-collision along a list of rectangles. -/
def noPairCollide : List Rect → Bool
  | [] => true
  | c :: rest => rest.all (fun w => !(collide c w)) && noPairCollide rest

/-- The placement invariant claimed for a generated room: every inner wall
avoids the central safe zone, the outer walls, and every other inner wall;
every enemy avoids the enemy safe zone and every wall of the room. -/
def roomInvariant (s : ℤ) (room : RoomS) : Bool :=
  let safe : Rect := ⟨Constants.GAME_WIDTH / 2 - s, Constants.GAME_HEIGHT / 2 - s,
    s * 2, s * 2⟩
  let ezone : Rect := ⟨Constants.GAME_WIDTH / 2 - s * 2,
    Constants.GAME_HEIGHT / 2 - s * 2, s * 2 * 2, s * 2 * 2⟩
  let inner := room.walls.drop 4
  inner.all (fun c => !(collide c safe)) &&
  inner.all (fun c => outerWallsL.all (fun w => !(collide c w))) &&
  noPairCollide inner &&
  room.enemies.all (fun e =>
    !(collide e.rect ezone) && room.walls.all (fun w => !(collide e.rect w)))

/-! ## Game state and Game.new_level (claim C3) -/

/-- The game-session state touched by Game.new_level. The upgrade modal that
may follow (which never changes level, points, position or immunity fields)
is represented by the can_upgrade flag it gates on. -/
structure GState where
  reached_level : ℤ
  earned_points : ℤ
  player_pos : ℤ × ℤ
  is_immune : Bool
  immunity_timer : ℤ
  tier : Tier
  room : RoomS
  can_upgrade : Bool
  difficulty : ℤ

namespace Game

/-- Game.new_level, parameterised by the freshly generated room (the result
of the Room constructor call it performs exactly once). Note it assigns
player.immunity_timer = 0 but does not touch player.is_immune. -/
def new_level (st : GState) (newRoom : RoomS) : GState :=
  let tier1 := Game.newLevelTier st.reached_level st.tier
  let level1 := st.reached_level + 1
  { st with
      tier := tier1
      reached_level := level1
      earned_points := st.earned_points + Room.POINTS
      room := newRoom
      player_pos := (Constants.GAME_WIDTH / 2, Constants.GAME_HEIGHT / 2)
      immunity_timer := 0
      can_upgrade :=
        if (level1 + 1) % (st.difficulty + 1) = 0 then true else st.can_upgrade }

/-- The level-advance check of the main loop: new_level runs exactly when the
enemy collection of the current room is empty. -/
def levelStep (st : GState) (newRoom : RoomS) : GState :=
  if st.room.enemies = [] then new_level st newRoom else st

end Game

/-- Claim C3 counterexample: new_level does not clear the immune flag. For a
player who is immune when the room clears, the flag is still set after the
transition (only the countdown is zeroed; the flag is dropped at the next
Player.update). -/
theorem new_level_immune_flag_cex :
    (Game.new_level ⟨0, 0, (0, 0), true, 30, initTier, ⟨[], []⟩, false, 0⟩
      ⟨[], []⟩).is_immune ≠ false := by
  decide

/-- Claim C3 (amended): new_level runs exactly when the enemy collection is
empty; each call increments reached_level by 1, awards the fixed room-clear
points (10), installs the freshly generated room (exactly one regeneration),
centres the player at (WIDTH // 2, HEIGHT // 2) = (400, 350), and zeroes the
immunity countdown, while the immune flag itself is left unchanged until the
next player update. -/
theorem new_level_spec (st : GState) (r : RoomS) :
    (st.room.enemies = [] → Game.levelStep st r = Game.new_level st r) ∧
    (st.room.enemies ≠ [] → Game.levelStep st r = st) ∧
    (Game.new_level st r).reached_level = st.reached_level + 1 ∧
    (Game.new_level st r).earned_points = st.earned_points + Room.POINTS ∧
    (Game.new_level st r).room = r ∧
    (Game.new_level st r).player_pos = (400, 350) ∧
    (Game.new_level st r).immunity_timer = 0 ∧
    (Game.new_level st r).is_immune = st.is_immune := by
  refine ⟨fun h => by simp [Game.levelStep, h], fun h => by simp [Game.levelStep, h],
    rfl, rfl, rfl, ?_, rfl, rfl⟩
  show (Constants.GAME_WIDTH / 2, Constants.GAME_HEIGHT / 2) = (400, 350)
  decide

theorem new_level_spec_witness :
    Game.levelStep ⟨0, 0, (0, 0), false, 0, initTier, ⟨[], []⟩, false, 0⟩ ⟨[], []⟩ =
      Game.new_level ⟨0, 0, (0, 0), false, 0, initTier, ⟨[], []⟩, false, 0⟩ ⟨[], []⟩ :=
  (new_level_spec _ _).1 rfl

/-! ## Claims C4 and C5: properties of Room.create_room -/

theorem okWall_eq {walls : List Rect} {safe c : Rect} :
    okWall walls safe c = true ↔
      collide c safe = false ∧ ∀ w ∈ walls, collide c w = false := by
  simp [okWall, List.all_eq_true]

theorem okEnemySpot_eq {walls : List Rect} {ezone r : Rect} :
    okEnemySpot walls ezone r = true ↔
      collide r ezone = false ∧ ∀ w ∈ walls, collide r w = false := by
  simp [okEnemySpot, List.all_eq_true]

/-- The acceptance chain recorded by successive inner-wall placements: each
wall passed okWall against the walls present when it was placed. -/
def wallChain (safe : Rect) : List Rect → List Rect → Prop
  | _, [] => True
  | base, c :: rest => okWall base safe c = true ∧ wallChain safe (base ++ [c]) rest

theorem tryPlaceWall_some :
    ∀ (fuel : ℕ) (o : ℕ → ℕ) (p : ℕ) (walls : List Rect) (safe c : Rect) (p1 : ℕ),
      tryPlaceWall fuel o p walls safe = some (c, p1) → okWall walls safe c = true := by
  intro fuel
  induction fuel with
  | zero => intro o p walls safe c p1 h; simp [tryPlaceWall] at h
  | succ k ih =>
      intro o p walls safe c p1 h
      simp only [tryPlaceWall] at h
      split at h
      · rename_i hok
        simp only [Option.some.injEq, Prod.mk.injEq] at h
        obtain ⟨rfl, rfl⟩ := h
        exact hok
      · exact ih o (p + 4) walls safe c p1 h

theorem placeWalls_some :
    ∀ (n fuel : ℕ) (o : ℕ → ℕ) (p : ℕ) (walls : List Rect) (safe : Rect)
      (ws : List Rect) (p1 : ℕ),
      placeWalls n fuel o p walls safe = some (ws, p1) →
      ∃ new, ws = walls ++ new ∧ wallChain safe walls new := by
  intro n
  induction n with
  | zero =>
      intro fuel o p walls safe ws p1 h
      simp only [placeWalls, Option.some.injEq, Prod.mk.injEq] at h
      exact ⟨[], by simp [h.1.symm], trivial⟩
  | succ k ih =>
      intro fuel o p walls safe ws p1 h
      simp only [placeWalls] at h
      split at h
      · simp at h
      · rename_i c p2 heq
        obtain ⟨new, rfl, hchain⟩ := ih fuel o p2 (walls ++ [c]) safe ws p1 h
        exact ⟨c :: new, by simp,
          ⟨tryPlaceWall_some fuel o p walls safe c p2 heq, hchain⟩⟩

theorem wallChain_elem :
    ∀ (new base : List Rect) (safe : Rect), wallChain safe base new →
      ∀ c ∈ new, collide c safe = false ∧ ∀ w ∈ base, collide c w = false := by
  intro new
  induction new with
  | nil => intro base safe _ c hc; simp at hc
  | cons a rest ih =>
      intro base safe hch c hc
      obtain ⟨hok, hchain⟩ := hch
      rcases List.mem_cons.mp hc with rfl | hc
      · exact okWall_eq.mp hok
      · have h2 := ih (base ++ [a]) safe hchain c hc
        exact ⟨h2.1, fun w hw => h2.2 w (List.mem_append_left _ hw)⟩

theorem wallChain_pair :
    ∀ (new base : List Rect) (safe : Rect), wallChain safe base new →
      noPairCollide new = true := by
  intro new
  induction new with
  | nil => intro base safe _; rfl
  | cons a rest ih =>
      intro base safe hch
      obtain ⟨hok, hchain⟩ := hch
      simp only [noPairCollide, Bool.and_eq_true]
      refine ⟨?_, ih (base ++ [a]) safe hchain⟩
      rw [List.all_eq_true]
      intro w hw
      have h2 := wallChain_elem rest (base ++ [a]) safe hchain w hw
      have h3 : collide w a = false := h2.2 a (by simp)
      rw [collide_comm a w]
      simp [h3]

theorem tryPlaceEnemy_some :
    ∀ (fuel : ℕ) (o : ℕ → ℕ) (p : ℕ) (walls : List Rect) (ezone : Rect)
      (mk : ℤ → ℤ → EnemyInst) (e : EnemyInst) (p1 : ℕ),
      tryPlaceEnemy fuel o p walls ezone mk = some (e, p1) →
      okEnemySpot walls ezone e.rect = true ∧ ∃ x y, e = mk x y := by
  intro fuel
  induction fuel with
  | zero => intro o p walls ezone mk e p1 h; simp [tryPlaceEnemy] at h
  | succ k ih =>
      intro o p walls ezone mk e p1 h
      simp only [tryPlaceEnemy] at h
      split at h
      · rename_i hok
        simp only [Option.some.injEq, Prod.mk.injEq] at h
        obtain ⟨rfl, rfl⟩ := h
        exact ⟨hok, _, _, rfl⟩
      · exact ih o (p + 2) walls ezone mk e p1 h

theorem placeEnemies_some :
    ∀ (n fuel : ℕ) (o : ℕ → ℕ) (p : ℕ) (walls : List Rect) (ezone : Rect)
      (bf bs : Bool) (mkN mkB : ℤ → ℤ → EnemyInst) (es : List EnemyInst) (p1 : ℕ),
      placeEnemies n fuel o p walls ezone bf bs mkN mkB = some (es, p1) →
      ∀ e ∈ es, okEnemySpot walls ezone e.rect = true := by
  intro n
  induction n with
  | zero =>
      intro fuel o p walls ezone bf bs mkN mkB es p1 h
      simp only [placeEnemies, Option.some.injEq, Prod.mk.injEq] at h
      obtain ⟨rfl, rfl⟩ := h
      intro e he
      simp at he
  | succ k ih =>
      intro fuel o p walls ezone bf bs mkN mkB es p1 h
      simp only [placeEnemies] at h
      split at h
      · simp only [Option.some.injEq, Prod.mk.injEq] at h
        obtain ⟨rfl, rfl⟩ := h
        intro e he
        simp at he
      · split at h
        · simp at h
        · rename_i e0 p2 heq
          split at h
          · simp at h
          · rename_i es2 p3 heq2
            simp only [Option.some.injEq, Prod.mk.injEq] at h
            obtain ⟨rfl, rfl⟩ := h
            intro e he
            rcases List.mem_cons.mp he with rfl | he
            · exact (tryPlaceEnemy_some _ _ _ _ _ _ _ _ heq).1
            · exact ih fuel o p2 walls ezone bf (bs || bf) mkN mkB es2 p3 heq2 e he

/-- Claim C4: for every oracle and fuel, whenever Room.create_room completes,
no inner wall collides with the central safe zone, the outer walls, or
another inner wall, and no enemy collides with the enemy safe zone or any
wall of the room. -/
theorem create_room_placement_invariant (l : ℤ) (tierHealth : ℚ) (ew eh bw bh s : ℤ)
    (fuel : ℕ) (o : ℕ → ℕ) (room : RoomS)
    (h : Room.create_room l tierHealth ew eh bw bh s fuel o = some room) :
    roomInvariant s room = true := by
  simp only [Room.create_room] at h
  split at h
  · simp at h
  · rename_i ws p hpw
    split at h
    · simp at h
    · rename_i es p2 hpe
      simp only [Option.some.injEq] at h
      subst h
      obtain ⟨new, rfl, hchain⟩ := placeWalls_some _ _ _ _ _ _ _ _ hpw
      have hdrop : (outerWallsL ++ new).drop 4 = new := rfl
      have helems := wallChain_elem new outerWallsL _ hchain
      have hpair := wallChain_pair new outerWallsL _ hchain
      have henemies := placeEnemies_some _ _ _ _ _ _ _ _ _ _ _ _ hpe
      simp only [roomInvariant, hdrop]
      rw [Bool.and_eq_true, Bool.and_eq_true, Bool.and_eq_true]
      refine ⟨⟨⟨?_, ?_⟩, hpair⟩, ?_⟩
      · rw [List.all_eq_true]
        intro c hc
        simp [(helems c hc).1]
      · rw [List.all_eq_true]
        intro c hc
        rw [List.all_eq_true]
        intro w hw
        simp [(helems c hc).2 w hw]
      · rw [List.all_eq_true]
        intro e he
        have h2 := okEnemySpot_eq.mp (henemies e he)
        rw [Bool.and_eq_true]
        refine ⟨by simp [h2.1], ?_⟩
        rw [List.all_eq_true]
        intro w hw
        simp [h2.2 w hw]

/-- Claim C5: in a boss room ((reached_level + 1) mod 4 = 0), whenever
Room.create_room completes, the enemy collection holds exactly one enemy,
that enemy is the boss variant, and its health is 30 + 3 * reached_level. -/
theorem boss_room_single_boss (l : ℤ) (tierHealth : ℚ) (ew eh bw bh s : ℤ) (fuel : ℕ)
    (o : ℕ → ℕ) (room : RoomS) (hl : (l + 1) % 4 = 0)
    (h : Room.create_room l tierHealth ew eh bw bh s fuel o = some room) :
    ∃ e, room.enemies = [e] ∧ e.isBoss = true ∧ e.health = 30 + 3 * (l : ℚ) := by
  simp only [Room.create_room, hl, decide_True, if_true] at h
  split at h
  · simp at h
  · rename_i ws p hpw
    split at h
    · simp at h
    · rename_i es p2 hpe
      simp only [Option.some.injEq] at h
      subst h
      simp only [placeEnemies, Bool.false_eq_true, if_false] at hpe
      split at hpe
      · simp at hpe
      · rename_i e0 p3 heq
        simp only [Option.some.injEq, Prod.mk.injEq] at hpe
        obtain ⟨rfl, rfl⟩ := hpe
        obtain ⟨-, x, y, rfl⟩ := tryPlaceEnemy_some _ _ _ _ _ _ _ _ heq
        refine ⟨_, rfl, rfl, ?_⟩
        show ((BossEnemy.max_health_c + BossEnemy.BOSS_HEALTH_SCALING * l : ℤ) : ℚ) =
          30 + 3 * (l : ℚ)
        push_cast [BossEnemy.max_health_c, BossEnemy.BOSS_HEALTH_SCALING]
        ring

/-- A concrete random stream: wall count 3; inner walls at (80, 80), (200, 80),
(320, 80), each 40 by 40; one enemy centred at (100, 300). -/
def oracle0 : ℕ → ℕ :=
  fun n => ([0, 0, 0, 0, 0, 120, 0, 0, 0, 240, 0, 0, 0, 0, 20, 220] : List ℕ).getD n 0

/-- The room generated by oracle0 at level 0 with sprite size 20 by 20. -/
def room0 : RoomS :=
  ⟨outerWallsL ++ [⟨80, 80, 40, 40⟩, ⟨200, 80, 40, 40⟩, ⟨320, 80, 40, 40⟩],
    [⟨⟨90, 290, 20, 20⟩, 3, false⟩]⟩

theorem create_room_placement_invariant_witness : roomInvariant 70 room0 = true :=
  create_room_placement_invariant 0 3 20 20 30 30 70 1 oracle0 room0 (by rfl)

/-- The room generated by oracle0 at level 3 (a boss room) with boss sprite
size 30 by 30. -/
def room3 : RoomS :=
  ⟨outerWallsL ++ [⟨80, 80, 40, 40⟩, ⟨200, 80, 40, 40⟩, ⟨320, 80, 40, 40⟩],
    [⟨⟨85, 285, 30, 30⟩, ((39 : ℤ) : ℚ), true⟩]⟩

theorem boss_room_single_boss_witness :
    ∃ e, room3.enemies = [e] ∧ e.isBoss = true ∧ e.health = 30 + 3 * ((3 : ℤ) : ℚ) :=
  boss_room_single_boss 3 3 20 20 30 30 70 1 oracle0 room3 (by decide) (by rfl)

/-! ## Claim C7: the player health invariant -/

namespace Player

def MAX_HEALTH : ℤ := 21
def MAX_DAMAGE : ℤ := 10
def MIN_SHOOT_COOLDOWN : ℤ := 1
def MAX_SPEED : ℚ := 15

end Player

/-- The player fields touched by the health-related mutators and upgrade
effects. -/
structure PlayerH where
  current_health : ℤ
  max_health : ℤ
  damage : ℤ
  shoot_cooldown_set : ℤ
  speed : ℚ
  is_immune : Bool
  immunity_timer : ℤ
  immunity_duration : ℤ

/-- The player-mutating operations named by the claim: the health mutators,
take_damage, and the six upgrade effects. Arguments are naturals: every call
site in the program passes a non-negative integer (upgrade magnitudes come
from randint over bounds at least 1, and damage amounts are int-truncated
non-negative tier values). -/
inductive POp where
  | heal (n : ℕ)
  | set_current_health (n : ℕ)
  | set_max_health (n : ℕ)
  | increase_health (n : ℕ)
  | take_damage (amt : ℕ)
  | increase_damage (n : ℕ)
  | decrease_shoot_cooldown (n : ℕ)
  | increase_speed (n : ℕ)
  | increase_bullet_speed (n : ℕ)

/-- One mutator call, following the bodies of the corresponding Player
methods. take_damage takes the already-truncated damage amount as a
parameter; increase_bullet_speed mutates the Bullet class attribute and
leaves the player unchanged. -/
def playerStep (p : PlayerH) (op : POp) : PlayerH :=
  match op with
  | .heal n => { p with current_health := min p.max_health (p.current_health + n) }
  | .set_current_health n => { p with current_health := min p.max_health (n : ℤ) }
  | .set_max_health n =>
      let m := min Player.MAX_HEALTH (n : ℤ)
      { p with max_health := m, current_health := min p.current_health m }
  | .increase_health n =>
      { p with max_health := min Player.MAX_HEALTH (p.max_health + n) }
  | .take_damage amt =>
      if p.is_immune then p
      else { p with
              current_health := p.current_health - amt
              is_immune := true
              immunity_timer := p.immunity_duration }
  | .increase_damage n => { p with damage := min Player.MAX_DAMAGE (p.damage + n) }
  | .decrease_shoot_cooldown n =>
      { p with
          shoot_cooldown_set := max Player.MIN_SHOOT_COOLDOWN (p.shoot_cooldown_set - n) }
  | .increase_speed n => { p with speed := min Player.MAX_SPEED (p.speed + n) }
  | .increase_bullet_speed _ => p

/-- The player as initialised by Player.init and Game.setup_game. -/
def initPlayer : PlayerH :=
  { current_health := 3, max_health := 3, damage := 1, shoot_cooldown_set := 20,
    speed := 3, is_immune := false, immunity_timer := 0, immunity_duration := 60 }

def runOps (ops : List POp) : PlayerH := ops.foldl playerStep initPlayer

/-- The claimed invariant: health never exceeds max health, which never
exceeds the absolute cap 21. -/
def HealthInv (p : PlayerH) : Prop :=
  p.current_health ≤ p.max_health ∧ p.max_health ≤ 21

theorem playerStep_inv (p : PlayerH) (op : POp) (h : HealthInv p) :
    HealthInv (playerStep p op) := by
  obtain ⟨h1, h2⟩ := h
  cases op <;>
    simp only [playerStep, HealthInv, Player.MAX_HEALTH, Player.MAX_DAMAGE,
      Player.MIN_SHOOT_COOLDOWN] <;>
    try split
  all_goals constructor <;> (try dsimp only) <;> omega

/-- Claim C7: every sequence of the named player-mutating operations started
from the initial player preserves current_health le max_health le 21, while
current_health itself may go negative (witnessed by one boss-strength hit
from 3 health). -/
theorem player_health_invariant :
    (∀ ops : List POp, HealthInv (runOps ops)) ∧
    (runOps [POp.take_damage 5]).current_health < 0 := by
  constructor
  · intro ops
    have hfold : ∀ (os : List POp) (p : PlayerH), HealthInv p →
        HealthInv (os.foldl playerStep p) := by
      intro os
      induction os with
      | nil => intro p h; exact h
      | cons a t ih => intro p h; exact ih _ (playerStep_inv p a h)
    exact hfold ops initPlayer ⟨by norm_num [initPlayer], by norm_num [initPlayer]⟩
  · norm_num [runOps, playerStep, initPlayer]

/-! ## Claim C9: Game.get_upgrade_rects -/

/-- The six upgrade effect kinds of the fixed functions list. -/
inductive UpgradeKind where
  | increase_damage
  | increase_health
  | heal
  | decrease_shoot_cooldown
  | increase_speed
  | increase_bullet_speed
deriving DecidableEq, Repr

/-- The functions list of Game.get_upgrade_rects, in source order. -/
def upgradeFunctions : List UpgradeKind :=
  [.increase_damage, .increase_health, .heal, .decrease_shoot_cooldown,
   .increase_speed, .increase_bullet_speed]

/-- The per-kind lower range bound, as a function of reached_level. -/
def upgradeLower : UpgradeKind → ℤ → ℤ
  | .increase_damage, l => max 1 (l / 2)
  | .increase_health, l => max 1 (l / 2)
  | .heal, l => max 2 (l / 2)
  | .decrease_shoot_cooldown, l => max 1 (l / 2)
  | .increase_speed, l => max 1 (l / 2)
  | .increase_bullet_speed, l => max 1 (l / 2)

/-- The per-kind upper range bound, as a function of reached_level (for
decrease_shoot_cooldown the source sets upper = lower). -/
def upgradeUpper : UpgradeKind → ℤ → ℤ
  | .increase_damage, l => max 2 (l / 2)
  | .increase_health, l => max 2 (l / 2)
  | .heal, l => max 4 l
  | .decrease_shoot_cooldown, l => max 1 (l / 2)
  | .increase_speed, l => max 2 l
  | .increase_bullet_speed, l => max 2 (l / 3)

namespace Game

/-- Game.balanced_randint: widens a degenerate range before drawing. -/
def balanced_randint (lower upper : ℤ) (r : ℕ) : ℤ :=
  if lower ≥ upper then randintM lower (lower + 1) r
  else randintM lower upper r

end Game

/-- The corrected upper bound actually used by the draw. -/
def correctedUpper (k : UpgradeKind) (l : ℤ) : ℤ :=
  if upgradeLower k l ≥ upgradeUpper k l then upgradeLower k l + 1 else upgradeUpper k l

/-- The magnitude drawn for one offer of the given kind. -/
def offerNumber (k : UpgradeKind) (l : ℤ) (r : ℕ) : ℤ :=
  Game.balanced_randint (upgradeLower k l) (upgradeUpper k l) r

/-- random.choice on the remaining functions list, drawing by index. -/
def pickKind (xs : List UpgradeKind) (r : ℕ) : UpgradeKind :=
  xs.getD (r % xs.length) .increase_damage

namespace Game

/-- Game.get_upgrade_rects: three draws, each removing the chosen kind from
the functions list (random.choice then list.remove), with a magnitude from
the kind-specific range. -/
def get_upgrade_rects (l : ℤ) (o : ℕ → ℕ) : List (UpgradeKind × ℤ) :=
  let k1 := pickKind upgradeFunctions (o 0)
  let rest1 := upgradeFunctions.erase k1
  let n1 := offerNumber k1 l (o 1)
  let k2 := pickKind rest1 (o 2)
  let rest2 := rest1.erase k2
  let n2 := offerNumber k2 l (o 3)
  let k3 := pickKind rest2 (o 4)
  let n3 := offerNumber k3 l (o 5)
  [(k1, n1), (k2, n2), (k3, n3)]

end Game

theorem getD_mem {α : Type} (xs : List α) (i : ℕ) (d : α) (h : i < xs.length) :
    xs.getD i d ∈ xs := by
  induction xs generalizing i with
  | nil => simp at h
  | cons a t ih =>
      cases i with
      | zero => simp
      | succ j =>
          simp only [List.getD_cons_succ]
          exact List.mem_cons_of_mem _ (ih j (by simpa using h))

theorem pickKind_mem (xs : List UpgradeKind) (r : ℕ) (h : xs ≠ []) :
    pickKind xs r ∈ xs := by
  have hl : 0 < xs.length := List.length_pos.mpr h
  exact getD_mem xs (r % xs.length) _ (Nat.mod_lt _ hl)

theorem randintM_bounds (a b : ℤ) (r : ℕ) (h : a ≤ b) :
    a ≤ randintM a b r ∧ randintM a b r ≤ b := by
  unfold randintM
  have hpos : (0 : ℤ) < b - a + 1 := by omega
  have h1 := Int.emod_nonneg (r : ℤ) (by omega : b - a + 1 ≠ 0)
  have h2 := Int.emod_lt_of_pos (r : ℤ) hpos
  omega

theorem offerNumber_bounds (k : UpgradeKind) (l : ℤ) (r : ℕ) :
    upgradeLower k l ≤ offerNumber k l r ∧ offerNumber k l r ≤ correctedUpper k l := by
  unfold offerNumber Game.balanced_randint correctedUpper
  split
  · exact randintM_bounds _ _ r (by omega)
  · rename_i hc
    exact randintM_bounds _ _ r (by omega)

/-- Claim C9: every upgrade checkpoint generates exactly three offers, with
pairwise distinct kinds drawn without replacement from the fixed list of six,
and each magnitude within the kind-specific range after the
lower-ge-upper auto-correction, for every oracle (so sampling never fails).
The hypothesis 0 le l reflects that reached_level is a counter starting at 0,
so the Python truncating division in the range formulas agrees with integer
division. -/
theorem upgrade_offers_spec (l : ℤ) (o : ℕ → ℕ) (hl : 0 ≤ l) :
    ∃ k1 n1 k2 n2 k3 n3,
      Game.get_upgrade_rects l o = [(k1, n1), (k2, n2), (k3, n3)] ∧
      k1 ∈ upgradeFunctions ∧ k2 ∈ upgradeFunctions ∧ k3 ∈ upgradeFunctions ∧
      k1 ≠ k2 ∧ k1 ≠ k3 ∧ k2 ≠ k3 ∧
      (upgradeLower k1 l ≤ n1 ∧ n1 ≤ correctedUpper k1 l) ∧
      (upgradeLower k2 l ≤ n2 ∧ n2 ≤ correctedUpper k2 l) ∧
      (upgradeLower k3 l ≤ n3 ∧ n3 ≤ correctedUpper k3 l) := by
  have hnd : upgradeFunctions.Nodup := by decide
  have hne : upgradeFunctions ≠ [] := by decide
  have hk1 : pickKind upgradeFunctions (o 0) ∈ upgradeFunctions := pickKind_mem _ _ hne
  have hr1len : (upgradeFunctions.erase (pickKind upgradeFunctions (o 0))).length = 5 := by
    rw [List.length_erase_of_mem hk1]
    rfl
  have hr1ne : upgradeFunctions.erase (pickKind upgradeFunctions (o 0)) ≠ [] := by
    intro hcon
    rw [hcon] at hr1len
    simp at hr1len
  have hr1nd : (upgradeFunctions.erase (pickKind upgradeFunctions (o 0))).Nodup :=
    hnd.erase _
  have hk2 := pickKind_mem _ (o 2) hr1ne
  have hk2s := hnd.mem_erase_iff.mp hk2
  have hr2len :
      ((upgradeFunctions.erase (pickKind upgradeFunctions (o 0))).erase
        (pickKind (upgradeFunctions.erase (pickKind upgradeFunctions (o 0))) (o 2))).length
        = 4 := by
    rw [List.length_erase_of_mem hk2, hr1len]
  have hr2ne :
      (upgradeFunctions.erase (pickKind upgradeFunctions (o 0))).erase
        (pickKind (upgradeFunctions.erase (pickKind upgradeFunctions (o 0))) (o 2)) ≠ [] := by
    intro hcon
    rw [hcon] at hr2len
    simp at hr2len
  have hk3 := pickKind_mem _ (o 4) hr2ne
  have hk3s := hr1nd.mem_erase_iff.mp hk3
  have hk3t := hnd.mem_erase_iff.mp hk3s.2
  exact ⟨_, _, _, _, _, _, rfl, hk1, hk2s.2, hk3t.2, (hk2s.1).symm, (hk3t.1).symm,
    (hk3s.1).symm, offerNumber_bounds _ _ _, offerNumber_bounds _ _ _,
    offerNumber_bounds _ _ _⟩

theorem upgrade_offers_spec_witness :
    ∃ k1 n1 k2 n2 k3 n3,
      Game.get_upgrade_rects 0 (fun _ => 0) = [(k1, n1), (k2, n2), (k3, n3)] ∧
      k1 ∈ upgradeFunctions ∧ k2 ∈ upgradeFunctions ∧ k3 ∈ upgradeFunctions ∧
      k1 ≠ k2 ∧ k1 ≠ k3 ∧ k2 ≠ k3 ∧
      (upgradeLower k1 0 ≤ n1 ∧ n1 ≤ correctedUpper k1 0) ∧
      (upgradeLower k2 0 ≤ n2 ∧ n2 ≤ correctedUpper k2 0) ∧
      (upgradeLower k3 0 ≤ n3 ∧ n3 ≤ correctedUpper k3 0) :=
  upgrade_offers_spec 0 (fun _ => 0) (by decide)

/-! ## Claim C10: Bullet.update -/

/-- A bullet in flight: integer rect plus float velocity components. -/
structure BulletB where
  rect : Rect
  dx : ℚ
  dy : ℚ
  lifetime : ℤ

/-- An enemy as seen by bullet collision: rect and (float) health. -/
structure EnemyB where
  rect : Rect
  health : ℚ
deriving DecidableEq

/-- Adding a float velocity component to an integer pygame rect coordinate:
the result is truncated on assignment. -/
def pyAdd (x : ℤ) (d : ℚ) : ℤ := pyInt ((x : ℚ) + d)

namespace Bullet

/-- The bullet rectangle after the two position increments at the top of
Bullet.update. -/
def movedRect (b : BulletB) : Rect :=
  { b.rect with x := pyAdd b.rect.x b.dx, y := pyAdd b.rect.y b.dy }

end Bullet

/-- The for-loop over spritecollide hits: the first enemy in iteration order
whose rect overlaps the bullet loses the damage, then break. Returns whether
some enemy was hit, and the updated collection. -/
def damageFirst (m : Rect) (d : ℤ) : List EnemyB → Bool × List EnemyB
  | [] => (false, [])
  | e :: rest =>
      if collide m e.rect then (true, { e with health := e.health - (d : ℚ) } :: rest)
      else
        let r := damageFirst m d rest
        (r.1, e :: r.2)

/-- The observable result of one Bullet.update call: the moved rect, the
decremented lifetime, the updated enemy collection, and whether kill() was
invoked. -/
structure BulletRes where
  rect : Rect
  lifetime : ℤ
  enemies : List EnemyB
  killed : Bool

namespace Bullet

/-- Bullet.update: move, decrement lifetime, kill on wall hit (without
returning), damage the first overlapping enemy and kill, then kill when
off-screen or expired. -/
def update (b : BulletB) (walls : List Rect) (enemies : List EnemyB)
    (pdamage : ℤ) : BulletRes :=
  let m := movedRect b
  let life := b.lifetime - 1
  let wallHit := walls.any (fun w => collide m w)
  let eres := damageFirst m pdamage enemies
  let offscreen :=
    decide (m.x + m.w < 0) || decide (m.x > Constants.GAME_WIDTH) ||
    decide (m.y + m.h < 0) || decide (m.y > Constants.GAME_HEIGHT)
  { rect := m, lifetime := life, enemies := eres.2,
    killed := wallHit || eres.1 || offscreen || decide (life ≤ 0) }

end Bullet

theorem damageFirst_spec (m : Rect) (d : ℤ) :
    ∀ (pre post : List EnemyB) (e : EnemyB),
      (∀ x ∈ pre, collide m x.rect = false) → collide m e.rect = true →
      damageFirst m d (pre ++ e :: post) =
        (true, pre ++ { e with health := e.health - (d : ℚ) } :: post) := by
  intro pre
  induction pre with
  | nil =>
      intro post e _ he
      simp [damageFirst, he]
  | cons a t ih =>
      intro post e hpre he
      have ha : collide m a.rect = false := hpre a (by simp)
      rw [List.cons_append]
      simp only [damageFirst, ha, Bool.false_eq_true, if_false]
      rw [ih post e (fun x hx => hpre x (by simp [hx])) he]
      rfl

/-- Claim C10: a wall hit does not short-circuit the enemy check within one
Bullet.update: if the moved rect overlaps some wall and some enemy, the
bullet is killed and the first overlapping enemy in iteration order still
loses the player damage in the same update, the rest unchanged. -/
theorem bullet_update_wall_enemy_same_tick (b : BulletB) (walls : List Rect)
    (pre post : List EnemyB) (e : EnemyB) (pdamage : ℤ)
    (hw : walls.any (fun w => collide (Bullet.movedRect b) w) = true)
    (hpre : ∀ x ∈ pre, collide (Bullet.movedRect b) x.rect = false)
    (he : collide (Bullet.movedRect b) e.rect = true) :
    (Bullet.update b walls (pre ++ e :: post) pdamage).killed = true ∧
    (Bullet.update b walls (pre ++ e :: post) pdamage).enemies =
      pre ++ { e with health := e.health - (pdamage : ℚ) } :: post := by
  have hd := damageFirst_spec (Bullet.movedRect b) pdamage pre post e hpre he
  constructor
  · simp [Bullet.update, hw]
  · simp [Bullet.update, hd]

def b0w : BulletB := ⟨⟨0, 0, 10, 10⟩, 0, 0, 60⟩

def walls0 : List Rect := [⟨5, 5, 20, 20⟩]

def pre0 : List EnemyB := [⟨⟨100, 100, 10, 10⟩, 3⟩]

def e0 : EnemyB := ⟨⟨3, 3, 10, 10⟩, 3⟩

theorem bullet_update_wall_enemy_same_tick_witness :
    (Bullet.update b0w walls0 (pre0 ++ e0 :: []) 1).killed = true ∧
    (Bullet.update b0w walls0 (pre0 ++ e0 :: []) 1).enemies =
      pre0 ++ { e0 with health := e0.health - ((1 : ℤ) : ℚ) } :: [] := by
  have hm : Bullet.movedRect b0w = ⟨0, 0, 10, 10⟩ := by
    norm_num [Bullet.movedRect, pyAdd, pyInt, b0w]
  exact bullet_update_wall_enemy_same_tick b0w walls0 pre0 [] e0 1
    (by simp only [hm]; decide) (by simp only [hm]; decide) (by simp only [hm]; decide)

/-! ## Claim C6: Player.shoot -/

/-- The player state relevant to shooting. -/
structure ShootPS where
  shoot_cooldown : ℕ
  shoot_cooldown_set : ℕ
  centerx : ℤ
  centery : ℤ

/-- A spawned bullet: centre of origin, real-valued velocity, lifetime. -/
structure BulletR where
  x : ℤ
  y : ℤ
  vx : ℝ
  vy : ℝ
  lifetime : ℤ

namespace Bullet

def INITIAL_LIFETIME : ℤ := 60

end Bullet

namespace Player

open Classical in
/-- Player.shoot: no-op unless the cooldown is 0; computes the direction to
the mouse position, returns early when its length is zero (guarding the
division), otherwise spawns one bullet whose velocity is the normalized
direction scaled by S = Bullet.CURRENT_BULLET_SPEED, and resets the cooldown
to the configured setting. -/
noncomputable def shoot (S : ℝ) (p : ShootPS) (mx my : ℤ) (bullets : List BulletR) :
    ShootPS × List BulletR :=
  if p.shoot_cooldown = 0 then
    let dx : ℝ := (mx : ℝ) - (p.centerx : ℝ)
    let dy : ℝ := (my : ℝ) - (p.centery : ℝ)
    let dist := Real.sqrt (dx ^ 2 + dy ^ 2)
    if dist = 0 then (p, bullets)
    else
      ({ p with shoot_cooldown := p.shoot_cooldown_set },
        bullets ++ [⟨p.centerx, p.centery, dx / dist * S, dy / dist * S,
          Bullet.INITIAL_LIFETIME⟩])
  else (p, bullets)

end Player

/-- The length of the aim vector computed by Player.shoot (math.hypot). -/
noncomputable def aimDist (p : ShootPS) (mx my : ℤ) : ℝ :=
  Real.sqrt (((mx : ℝ) - (p.centerx : ℝ)) ^ 2 + ((my : ℝ) - (p.centery : ℝ)) ^ 2)

theorem sq_add_sq_pos {a b : ℝ} (h : a ≠ 0 ∨ b ≠ 0) : 0 < a ^ 2 + b ^ 2 := by
  rcases h with h | h
  · have ha : 0 < a ^ 2 := by
      rcases (sq_nonneg a).lt_or_eq with h1 | h1
      · exact h1
      · exact absurd ((pow_eq_zero_iff (by norm_num : (2 : ℕ) ≠ 0)).mp h1.symm) h
    linarith [sq_nonneg b]
  · have hb : 0 < b ^ 2 := by
      rcases (sq_nonneg b).lt_or_eq with h1 | h1
      · exact h1
      · exact absurd ((pow_eq_zero_iff (by norm_num : (2 : ℕ) ≠ 0)).mp h1.symm) h
    linarith [sq_nonneg a]

/-- Claim C6: shoot is a no-op (state and bullet collection unchanged) when
the cooldown has not expired or when the target coincides with the player
centre (and then no division by zero happens: the zero-length guard fires);
otherwise exactly one bullet is appended, its velocity is the normalized
direction scaled by the bullet speed (so its squared speed is S squared),
and the cooldown is reset to the configured setting. -/
theorem shoot_spec (S : ℝ) (p : ShootPS) (mx my : ℤ) (bullets : List BulletR) :
    (p.shoot_cooldown ≠ 0 → Player.shoot S p mx my bullets = (p, bullets)) ∧
    (mx = p.centerx ∧ my = p.centery → Player.shoot S p mx my bullets = (p, bullets)) ∧
    (p.shoot_cooldown = 0 → ¬(mx = p.centerx ∧ my = p.centery) →
      aimDist p mx my ≠ 0 ∧
      Player.shoot S p mx my bullets =
        ({ p with shoot_cooldown := p.shoot_cooldown_set },
          bullets ++ [⟨p.centerx, p.centery,
            ((mx : ℝ) - (p.centerx : ℝ)) / aimDist p mx my * S,
            ((my : ℝ) - (p.centery : ℝ)) / aimDist p mx my * S,
            Bullet.INITIAL_LIFETIME⟩]) ∧
      (((mx : ℝ) - (p.centerx : ℝ)) / aimDist p mx my * S) ^ 2 +
        (((my : ℝ) - (p.centery : ℝ)) / aimDist p mx my * S) ^ 2 = S ^ 2) := by
  refine ⟨?_, ?_, ?_⟩
  · intro h
    simp [Player.shoot, h]
  · rintro ⟨rfl, rfl⟩
    by_cases hc : p.shoot_cooldown = 0
    · simp [Player.shoot, hc]
    · simp [Player.shoot, hc]
  · intro hc hne
    have hor : (mx : ℝ) - (p.centerx : ℝ) ≠ 0 ∨ (my : ℝ) - (p.centery : ℝ) ≠ 0 := by
      rcases not_and_or.mp hne with h | h
      · left
        intro hz
        exact h (by exact_mod_cast sub_eq_zero.mp hz)
      · right
        intro hz
        exact h (by exact_mod_cast sub_eq_zero.mp hz)
    have hpos := sq_add_sq_pos hor
    have hdist : aimDist p mx my ≠ 0 := by
      unfold aimDist
      exact Real.sqrt_ne_zero'.mpr hpos
    have hsq : (aimDist p mx my) ^ 2 =
        ((mx : ℝ) - (p.centerx : ℝ)) ^ 2 + ((my : ℝ) - (p.centery : ℝ)) ^ 2 := by
      unfold aimDist
      exact Real.sq_sqrt (by positivity)
    refine ⟨hdist, ?_, ?_⟩
    · rw [Player.shoot, if_pos hc]
      rw [if_neg (show ¬ (Real.sqrt (((mx : ℝ) - (p.centerx : ℝ)) ^ 2 +
        ((my : ℝ) - (p.centery : ℝ)) ^ 2) = 0) from hdist)]
      rfl
    · field_simp
      linear_combination (-(S ^ 2)) * hsq

theorem shoot_spec_witness :
    Player.shoot 7 ⟨0, 20, 400, 350⟩ 400 350 [] = (⟨0, 20, 400, 350⟩, []) :=
  (shoot_spec 7 ⟨0, 20, 400, 350⟩ 400 350 []).2.1 ⟨rfl, rfl⟩

/-! ## Claim C8: diagonal movement normalization in Player.update -/

namespace Player

noncomputable def DIAGONAL_MOVEMENT_FACTOR : ℝ := 1 / Real.sqrt 2

open Classical in
/-- The displacement (dx, dy) computed by the movement section of
Player.update, before wall collision resolution and boundary clamping: each
held key writes its axis (the positive direction written last wins), and if
both axes are nonzero both are scaled by 1 / sqrt 2. -/
noncomputable def move_delta (left right up down : Bool) (speed : ℝ) : ℝ × ℝ :=
  let dx : ℝ := if left then -speed else 0
  let dx : ℝ := if right then speed else dx
  let dy : ℝ := if up then -speed else 0
  let dy : ℝ := if down then speed else dy
  if dx ≠ 0 ∧ dy ≠ 0 then
    (dx * DIAGONAL_MOVEMENT_FACTOR, dy * DIAGONAL_MOVEMENT_FACTOR)
  else (dx, dy)

end Player

/-- The magnitude of a displacement vector. -/
noncomputable def dispMag (v : ℝ × ℝ) : ℝ := Real.sqrt (v.1 ^ 2 + v.2 ^ 2)

theorem mag_diag (a b s : ℝ) (ha : a ^ 2 = s ^ 2) (hb : b ^ 2 = s ^ 2) :
    Real.sqrt ((a * Player.DIAGONAL_MOVEMENT_FACTOR) ^ 2 +
      (b * Player.DIAGONAL_MOVEMENT_FACTOR) ^ 2) = Real.sqrt (s ^ 2 + 0 ^ 2) := by
  have h2 : Real.sqrt 2 ^ 2 = 2 := Real.sq_sqrt (by norm_num)
  congr 1
  rw [mul_pow, mul_pow, ha, hb]
  unfold Player.DIAGONAL_MOVEMENT_FACTOR
  rw [div_pow, one_pow, h2]
  ring

/-- Claim C8: whenever both a horizontal and a vertical key contribute a
nonzero displacement, the magnitude of the diagonal displacement equals the
magnitude of a single-axis move at the same speed. -/
theorem diagonal_speed_law (left right up down : Bool) (s : ℝ)
    (hx : left = true ∨ right = true) (hy : up = true ∨ down = true) (hs : s ≠ 0) :
    dispMag (Player.move_delta left right up down s) =
      dispMag (Player.move_delta false true false false s) := by
  have hrhs : Player.move_delta false true false false s = (s, 0) := by
    simp [Player.move_delta]
  rw [hrhs]
  by_cases hr : right = true
  · by_cases hd : down = true
    · subst hr; subst hd
      have hl : Player.move_delta left true up true s =
          (s * Player.DIAGONAL_MOVEMENT_FACTOR, s * Player.DIAGONAL_MOVEMENT_FACTOR) := by
        simp [Player.move_delta, hs]
      rw [hl]
      simp only [dispMag]
      exact mag_diag s s s rfl rfl
    · rw [Bool.not_eq_true] at hd
      subst hr; subst hd
      have hu : up = true := by
        rcases hy with h | h
        · exact h
        · simp at h
      subst hu
      have hl : Player.move_delta left true true false s =
          (s * Player.DIAGONAL_MOVEMENT_FACTOR, -s * Player.DIAGONAL_MOVEMENT_FACTOR) := by
        simp [Player.move_delta, hs]
      rw [hl]
      simp only [dispMag]
      exact mag_diag s (-s) s rfl (neg_sq s)
  · rw [Bool.not_eq_true] at hr
    subst hr
    have hlft : left = true := by
      rcases hx with h | h
      · exact h
      · simp at h
    subst hlft
    by_cases hd : down = true
    · subst hd
      have hl : Player.move_delta true false up true s =
          (-s * Player.DIAGONAL_MOVEMENT_FACTOR, s * Player.DIAGONAL_MOVEMENT_FACTOR) := by
        simp [Player.move_delta, hs]
      rw [hl]
      simp only [dispMag]
      exact mag_diag (-s) s s (neg_sq s) rfl
    · rw [Bool.not_eq_true] at hd
      subst hd
      have hu : up = true := by
        rcases hy with h | h
        · exact h
        · simp at h
      subst hu
      have hl : Player.move_delta true false true false s =
          (-s * Player.DIAGONAL_MOVEMENT_FACTOR, -s * Player.DIAGONAL_MOVEMENT_FACTOR) := by
        simp [Player.move_delta, hs]
      rw [hl]
      simp only [dispMag]
      exact mag_diag (-s) (-s) s (neg_sq s) (neg_sq s)

theorem diagonal_speed_law_witness :
    dispMag (Player.move_delta true false true false 3) =
      dispMag (Player.move_delta false true false false 3) :=
  diagonal_speed_law true false true false 3 (Or.inl rfl) (Or.inl rfl) (by norm_num)
